import Mathlib

/-!
Shallow embedding of the dwat DWARF type-information library
(src/dwarf.rs, src/types.rs, src/format.rs) and proofs about it.

Modelling conventions:
* A DIE (`DIE`) is a tag, a list of named attributes, an optional resolved
  `DW_AT_type` reference and a list of child DIEs.  The source resolves
  `DW_AT_type` through a `UnitRef` offset inside the compile unit; on
  acyclic reference graphs that resolution always yields the same DIE, so
  the reference is stored already resolved (`typeAttr`).
* Attribute values (`AttrValue`) abstract gimli's `AttributeValue`:
  `.udata n` is any constant form whose `udata_value()` is `Some n`,
  `.str s` is any of the three string forms after successful resolution,
  `.exprloc` / `.loclist` are the expression and location-list forms,
  `.flag b` a boolean flag form, `.other` any remaining form (one with no
  `udata_value()`).
* The compile unit only enters the size computation through its header's
  `address_size`; it is passed as the `asz` argument.
* `Result<usize, Error>` becomes `Except Error Nat`.  Recursion through
  `DW_AT_type` chains is fuel-bounded (`fuel`); the fuel-exhaustion error
  models the source's nontermination on cyclic modifier chains, which the
  data-model invariant rules out.
* The hole and padding subtractions in `Struct::alignment_stats` are
  performed on `usize` in the source with no underflow guard; they are
  modelled on `Int`, so a negative value marks exactly the inputs where
  the source's `usize` subtraction underflows.  On all inputs where the
  differences are nonnegative the model agrees with the source exactly.
-/

namespace Dwat

/-- DWARF tags used by the library (gimli `DwTag` values that the source
matches on; `other` stands for every remaining tag). -/
inductive DwTag where
  | structure_type
  | array_type
  | enumeration_type
  | pointer_type
  | subroutine_type
  | typedef
  | union_type
  | base_type
  | const_type
  | volatile_type
  | restrict_type
  | variable
  | member
  | subrange_type
  | formal_parameter
  | enumerator
  | compile_unit
  | subprogram
  | other
deriving DecidableEq, Repr

/-- Attribute names used by the library (`DW_AT_*`).  `DW_AT_type` is not
here: it is the `typeAttr` field of `DIE`. -/
inductive AttrName where
  | name
  | byte_size
  | bit_size
  | data_member_location
  | upper_bound
  | count
  | declaration
  | alignment
  | const_value
  | other
deriving DecidableEq, Repr

/-- Attribute values, abstracting gimli's `AttributeValue` as described in
the module docstring. -/
inductive AttrValue where
  | udata (n : Nat)
  | str (s : String)
  | exprloc
  | loclist
  | flag (b : Bool)
  | other
deriving DecidableEq, Repr

/-- A debugging information entry: tag, attributes, resolved `DW_AT_type`
reference, and children in source order. -/
inductive DIE where
  | mk (tag : DwTag) (attrs : List (AttrName × AttrValue))
       (typeAttr : Option DIE) (children : List DIE)

def DIE.tag : DIE → DwTag
  | .mk t _ _ _ => t

def DIE.attrs : DIE → List (AttrName × AttrValue)
  | .mk _ a _ _ => a

def DIE.typeAttr : DIE → Option DIE
  | .mk _ _ ty _ => ty

def DIE.children : DIE → List DIE
  | .mk _ _ _ cs => cs

/-- Errors of the library (`dwat::Error`); the variants carried over are
the ones the embedded code can produce. -/
inductive Error where
  | NameAttributeNotFound
  | TypeAttributeNotFound
  | ByteSizeAttributeNotFound
  | BitSizeAttributeNotFound
  | MemberLocationAttributeNotFound
  | AlignmentAttributeNotFound
  | InvalidAttributeError
  | UnimplementedError (msg : String)
  | DIEError (msg : String)
deriving DecidableEq, Repr

/-- The `Type` enum of src/types.rs: the supported DWARF type tags, each
wrapping the handle (here: the DIE the handle resolves to). -/
inductive Ty where
  | struct (d : DIE)
  | array (d : DIE)
  | enum (d : DIE)
  | pointer (d : DIE)
  | subroutine (d : DIE)
  | typedef (d : DIE)
  | union (d : DIE)
  | base (d : DIE)
  | const (d : DIE)
  | volatile (d : DIE)
  | restrict (d : DIE)
  | variable (d : DIE)

/-- First attribute with the given name (gimli `entry.attr` /
`entry.attr_value`). -/
def findAttr (d : DIE) (k : AttrName) : Option AttrValue :=
  (d.attrs.find? (fun p => p.1 == k)).map Prod.snd

/-- `get_entry_name` of src/types.rs: the `DW_AT_name` attribute decoded
as a string.  All three successfully resolved string forms are `.str`;
an absent attribute is `NameAttributeNotFound`, any other form falls
through to `InvalidAttributeError`. -/
def get_entry_name (d : DIE) : Except Error String :=
  match findAttr d .name with
  | some (.str s) => .ok s
  | none => .error .NameAttributeNotFound
  | some _ => .error .InvalidAttributeError

/-- `get_entry_byte_size` of src/types.rs. -/
def get_entry_byte_size (d : DIE) : Except Error Nat :=
  match findAttr d .byte_size with
  | some (.udata n) => .ok n
  | some .exprloc => .error (.UnimplementedError "byte_size with exprloc value")
  | some .loclist => .error (.UnimplementedError "byte_size with loclist value")
  | some _ => .error .InvalidAttributeError
  | none => .error .ByteSizeAttributeNotFound

/-- `get_entry_alignment` of src/types.rs. -/
def get_entry_alignment (d : DIE) : Except Error Nat :=
  match findAttr d .alignment with
  | some (.udata n) => .ok n
  | some _ => .error .InvalidAttributeError
  | none => .error .AlignmentAttributeNotFound

/-- `entry_to_type` of src/types.rs: the tag→variant map; any other tag in
a type-reference position is an unimplemented error. -/
def entry_to_type (d : DIE) : Except Error Ty :=
  match d.tag with
  | .array_type => .ok (.array d)
  | .enumeration_type => .ok (.enum d)
  | .pointer_type => .ok (.pointer d)
  | .structure_type => .ok (.struct d)
  | .subroutine_type => .ok (.subroutine d)
  | .typedef => .ok (.typedef d)
  | .union_type => .ok (.union d)
  | .base_type => .ok (.base d)
  | .const_type => .ok (.const d)
  | .volatile_type => .ok (.volatile d)
  | .restrict_type => .ok (.restrict d)
  | _ => .error (.UnimplementedError "entry_to_type, unhandled dwarf type")

/-- `u_get_type` of the `UnitInnerType` trait: follow `DW_AT_type` and
decode the target through `entry_to_type`.  An absent (or non-reference)
`DW_AT_type` is `TypeAttributeNotFound`. -/
def u_get_type (d : DIE) : Except Error Ty :=
  match d.typeAttr with
  | some t => entry_to_type t
  | none => .error .TypeAttributeNotFound

mutual

/-- Depth-first linearization of a DIE subtree (the order produced by
gimli's `next_dfs`). -/
def DIE.dfs : DIE → List DIE
  | .mk t a ty cs => .mk t a ty cs :: dfsList cs

/-- Depth-first linearization of a forest of DIEs. -/
def dfsList : List DIE → List DIE
  | [] => []
  | c :: cs => DIE.dfs c ++ dfsList cs

end

/-- The DIEs visited by `next_dfs` after seeking to `d` and skipping `d`
itself, cut off at the end of `d`'s subtree. -/
def childEntries (d : DIE) : List DIE :=
  dfsList d.children

/-- `u_members` of the `UnitHasMembers` trait: the leading run of
`DW_TAG_member` entries that `next_dfs` yields after the aggregate DIE
(the loop breaks at the first non-member tag). -/
def u_members (d : DIE) : List DIE :=
  (childEntries d).takeWhile (fun c => c.tag == .member)

/-- `Subroutine::u_get_params`: the leading run of
`DW_TAG_formal_parameter` entries after the subroutine DIE. -/
def u_get_params (d : DIE) : List DIE :=
  (childEntries d).takeWhile (fun c => c.tag == .formal_parameter)

/-- `Member::u_member_location` of src/types.rs: `DW_AT_data_member_location`
read as a constant; exprloc and loclist forms are unimplemented. -/
def u_member_location (d : DIE) : Except Error Nat :=
  match findAttr d .data_member_location with
  | some (.udata n) => .ok n
  | some .exprloc => .error (.UnimplementedError "member_location with exprloc value")
  | some .loclist => .error (.UnimplementedError "member_location with loclist value")
  | some _ => .error .InvalidAttributeError
  | none => .error .MemberLocationAttributeNotFound

/-- `Member::u_offset`, an alias for `u_member_location`. -/
def u_offset (d : DIE) : Except Error Nat :=
  u_member_location d

/-- `Member::u_bit_size` of src/types.rs. -/
def u_bit_size (d : DIE) : Except Error Nat :=
  match findAttr d .bit_size with
  | some (.udata n) => .ok n
  | some .exprloc => .error (.UnimplementedError "bit_size with exprloc value")
  | some .loclist => .error (.UnimplementedError "bit_size with loclist value")
  | some _ => .error .InvalidAttributeError
  | none => .error .BitSizeAttributeNotFound

/-- The loop body of `Array::u_get_bound`: walk the leading
`DW_TAG_subrange_type` entries; `DW_AT_upper_bound` yields `value + 1`,
otherwise `DW_AT_count` yields `value`; with neither, move on, and at the
first non-subrange entry (or the end) the bound is 0. -/
def u_get_bound_loop : List DIE → Except Error Nat
  | [] => .ok 0
  | c :: rest =>
    if c.tag ≠ .subrange_type then .ok 0
    else
      match findAttr c .upper_bound with
      | some (.udata v) => .ok (v + 1)
      | some .exprloc => .error (.UnimplementedError "upper_bound with exprloc value")
      | some .loclist => .error (.UnimplementedError "upper_bound with loclist value")
      | some _ => .error .InvalidAttributeError
      | none =>
        match findAttr c .count with
        | some (.udata v) => .ok v
        | some .exprloc => .error (.UnimplementedError "count with exprloc value")
        | some .loclist => .error (.UnimplementedError "count with loclist value")
        | some _ => .error .InvalidAttributeError
        | none => u_get_bound_loop rest

/-- `Array::u_get_bound` of src/types.rs. -/
def u_get_bound (d : DIE) : Except Error Nat :=
  u_get_bound_loop (childEntries d)

mutual

/-- `Type::u_byte_size` of src/types.rs together with the per-kind
`u_byte_size` methods it dispatches to.  `asz` is the compile unit
header's `address_size`; `fuel` bounds the recursion through
`DW_AT_type` chains. -/
def Ty.u_byte_size (asz : Nat) : Nat → Ty → Except Error Nat
  | 0, _ => .error (.UnimplementedError "recursion limit")
  | fuel + 1, t =>
    match t with
    -- Struct::u_byte_size: the attribute is required
    | .struct d => get_entry_byte_size d
    -- Base::u_byte_size: the attribute is required, no recursion
    | .base d => get_entry_byte_size d
    -- Pointer::u_byte_size: always the unit header's address size
    | .pointer _ => .ok asz
    -- Type::u_byte_size marks Subroutine unsized
    | .subroutine _ => .error .ByteSizeAttributeNotFound
    -- Union::u_byte_size: attribute if readable, else max over members
    | .union d =>
      match get_entry_byte_size d with
      | .ok n => .ok n
      | .error _ => union_members_max asz fuel (u_members d) 0
    -- Enum::u_byte_size: attribute if readable, else the underlying type
    | .enum d =>
      match get_entry_byte_size d with
      | .ok n => .ok n
      | .error _ => (u_get_type d).bind (Ty.u_byte_size asz fuel)
    -- Typedef::u_byte_size: always the inner type
    | .typedef d => (u_get_type d).bind (Ty.u_byte_size asz fuel)
    -- Const::u_byte_size: attribute if readable, else the inner type
    | .const d =>
      match get_entry_byte_size d with
      | .ok n => .ok n
      | .error _ => (u_get_type d).bind (Ty.u_byte_size asz fuel)
    -- Volatile::u_byte_size: always the inner type
    | .volatile d => (u_get_type d).bind (Ty.u_byte_size asz fuel)
    -- Restrict::u_byte_size: always the inner type
    | .restrict d => (u_get_type d).bind (Ty.u_byte_size asz fuel)
    -- Variable::u_byte_size: always the inner type
    | .variable d => (u_get_type d).bind (Ty.u_byte_size asz fuel)
    -- Array::u_byte_size: attribute if readable, else entry size * bound
    | .array d =>
      match get_entry_byte_size d with
      | .ok n => .ok n
      | .error _ => do
        let es ← (u_get_type d).bind (Ty.u_byte_size asz fuel)
        let b ← u_get_bound d
        pure (es * b)

/-- The member loop of `Union::u_byte_size`: the running maximum of the
members' type sizes, starting from 0. -/
def union_members_max (asz : Nat) : Nat → List DIE → Nat → Except Error Nat
  | _, [], acc => .ok acc
  | 0, _ :: _, _ => .error (.UnimplementedError "recursion limit")
  | fuel + 1, m :: rest, acc => do
    let t ← u_get_type m
    let s ← Ty.u_byte_size asz fuel t
    union_members_max asz fuel rest (if s > acc then s else acc)

end

/-- `Member::u_byte_size`: the member delegates to its `DW_AT_type`'s
byte size. -/
def member_u_byte_size (asz fuel : Nat) (d : DIE) : Except Error Nat :=
  (u_get_type d).bind (Ty.u_byte_size asz fuel)

/-- `Array::u_entry_size`: the size of one array item. -/
def u_entry_size (asz fuel : Nat) (d : DIE) : Except Error Nat :=
  (u_get_type d).bind (Ty.u_byte_size asz fuel)

/-- The result of `Struct::alignment_stats`.  `holePositions` pairs are
(member index, hole size); `sumHoles` and `padding` carry the source's
unguarded `usize` subtractions as integers (see the module docstring). -/
structure AlignmentStats where
  nrHoles : Nat
  holePositions : List (Nat × Int)
  sumHoles : Int
  sumMemberSize : Nat
  padding : Int
  nrUnnatAlignment : Nat
deriving DecidableEq, Repr

/-- The mutable loop state of `Struct::alignment_stats`. -/
structure AlignState where
  nrHoles : Nat
  holePositions : List (Nat × Int)
  sumHoles : Int
  sumMemberSize : Nat
  nrUnnatAlignment : Nat
  prevOffset : Nat
  prevSize : Nat
deriving DecidableEq, Repr

/-- The member loop of `Struct::alignment_stats`, over the enumerated
member list.  The `prevOffset == 0` test is the source's literal seeding
condition (`// nothing to do for the first member`). -/
def align_loop (asz fuel : Nat) : List (Nat × DIE) → AlignState → Except Error AlignState
  | [], st => .ok st
  | (idx, m) :: rest, st => do
    let currOffset ← u_offset m
    let currSize ← member_u_byte_size asz fuel m
    let st := { st with sumMemberSize := st.sumMemberSize + currSize }
    if st.prevOffset == 0 then
      align_loop asz fuel rest { st with prevOffset := currOffset, prevSize := currSize }
    else do
      -- array alignment is based on the entry type size
      let t ← u_get_type m
      let byteSizeSingle ←
        match t with
        | .array a => u_entry_size asz fuel a
        | _ => pure currSize
      -- size zero members don't matter
      if currSize == 0 || byteSizeSingle == 0 then
        align_loop asz fuel rest st
      else
        let holeSz : Int := (currOffset : Int) - ((st.prevSize : Int) + (st.prevOffset : Int))
        let st := { st with sumHoles := st.sumHoles + holeSz }
        let st :=
          if holeSz > 0 then
            { st with nrHoles := st.nrHoles + 1,
                      holePositions := st.holePositions ++ [(idx, holeSz)] }
          else st
        let st :=
          if currOffset % byteSizeSingle ≠ 0 then
            { st with nrUnnatAlignment := st.nrUnnatAlignment + 1 }
          else st
        align_loop asz fuel rest { st with prevOffset := currOffset, prevSize := currSize }

/-- `Struct::alignment_stats` of src/types.rs: run the member loop, then
compute the trailing padding `byte_size - (prev_size + prev_offset)`
(unguarded in the source; see the module docstring). -/
def alignment_stats (asz fuel : Nat) (d : DIE) : Except Error AlignmentStats := do
  let st ← align_loop asz fuel (u_members d).enum ⟨0, [], 0, 0, 0, 0, 0⟩
  let byteSize ← get_entry_byte_size d
  pure ⟨st.nrHoles, st.holePositions, st.sumHoles, st.sumMemberSize,
        (byteSize : Int) - ((st.prevSize : Int) + (st.prevOffset : Int)),
        st.nrUnnatAlignment⟩

/-- A compile unit as seen by `for_each_tagged_entry` of src/dwarf.rs:
its header's address size and its root DIEs. -/
structure CUData where
  addressSize : Nat
  roots : List DIE

/-- The whole `.debug_info` section: the compile units in section order. -/
abbrev DwarfData := List CUData

/-- Every DIE visited by `for_each_tagged_entry`: unit order in the
section, then DFS order within each unit. -/
def allEntries (dw : DwarfData) : List DIE :=
  (dw.map (fun c => (c.roots.map DIE.dfs).flatten)).flatten

/-- The per-entry test of `DwarfLookups::lookup_type`:
`for_each_tagged_entry` skips entries whose tag differs, and the callback
matches when the name decodes and equals the query.  There is no
`DW_AT_declaration` check on this path. -/
def lookup_match (t : DwTag) (name : String) (d : DIE) : Bool :=
  d.tag == t &&
    match get_entry_name d with
    | .ok s => s == name
    | .error _ => false

/-- `DwarfLookups::lookup_type` of src/dwarf.rs: the first matching entry
(the handle is identified with the DIE it resolves to); the `find?`
models the early-exit scan. -/
def lookup_type (t : DwTag) (name : String) (dw : DwarfData) : Option DIE :=
  (allEntries dw).find? (lookup_match t name)

/-- Whether a DIE carries `DW_AT_declaration = true` (the condition the
claims use to call a DIE a declaration). -/
def declaredTrue (d : DIE) : Bool :=
  match findAttr d .declaration with
  | some (.flag true) => true
  | _ => false

/-- A run of `n` space characters. -/
def spaces (n : Nat) : String :=
  String.mk (List.replicate n ' ')

/-- Rust's `format!("{n: >4}")`: the decimal digits right-aligned in a
field of width at least 4. -/
def pad4 (n : Nat) : String :=
  spaces (4 - (toString n).length) ++ toString n

/-- The indentation loop `for _ in 0..=tablevel { push("    ") }`:
`tablevel + 1` copies of four spaces. -/
def indentStr (tablevel : Nat) : String :=
  String.join (List.replicate (tablevel + 1) "    ")

/-- Length of the text after the last newline
(`formatted.len() - formatted.rfind('\n').map(|i| i+1).unwrap_or(0)`;
lengths are in characters, which agrees with the source's byte lengths on
the ASCII text the formatter produces). -/
def lastLineLen (s : String) : Nat :=
  (s.data.reverse.takeWhile (fun c => c != '\n')).length

/-- The member-name step of `format_member`: `NameAttributeNotFound`
becomes the empty name, other errors are returned. -/
def member_name_or_empty (m : DIE) : Except Error String :=
  match get_entry_name m with
  | .ok n => .ok n
  | .error .NameAttributeNotFound => .ok ""
  | .error e => .error e

/-- The offset step of `format_member`: `MemberLocationAttributeNotFound`
becomes offset 0, other errors are returned. -/
def member_offset_or_zero (m : DIE) : Except Error Nat :=
  match u_offset m with
  | .ok o => .ok o
  | .error .MemberLocationAttributeNotFound => .ok 0
  | .error e => .error e

/-- The bit-size step of `format_member`: a present `DW_AT_bit_size`
appends `:N`, an absent one appends nothing, other errors are returned. -/
def bit_suffix (m : DIE) (s : String) : Except Error String :=
  match u_bit_size m with
  | .ok b => .ok (s ++ ":" ++ toString b)
  | .error .BitSizeAttributeNotFound => .ok s
  | .error e => .error e

mutual

/-- `format_type` of src/format.rs. -/
def format_type (asz : Nat) :
    Nat → String → Ty → Nat → Nat → Nat → Nat → Except Error String
  | 0, _, _, _, _, _, _ => .error (.UnimplementedError "recursion limit")
  | fuel + 1, memberName, t, level, tablevel, verbosity, baseOffset =>
    match t with
    | .array a => do
      let inner ← u_get_type a
      let innerFmt ← format_type asz fuel "" inner (level + 1) tablevel verbosity baseOffset
      let out := innerFmt
      let out := if !(out.endsWith "*") then out ++ " " else out
      let out := if level == 0 then out ++ memberName else out
      let bound ← u_get_bound a
      pure (out ++ (if bound == 0 then "[]" else "[" ++ toString bound ++ "]"))
    | .typedef t => do
      let name ← get_entry_name t
      if level == 0 then pure (name ++ " " ++ memberName) else pure name
    | .struct t =>
      match get_entry_name t with
      | .ok name =>
        if level == 0 then pure ("struct " ++ name ++ " " ++ memberName)
        else pure ("struct " ++ name)
      | .error .NameAttributeNotFound => do
        -- reaching here means we hit a nested struct type
        let body ← format_members_concat asz fuel (u_members t) (tablevel + 1) verbosity baseOffset
        pure ("struct \x7b\n" ++ body ++ indentStr tablevel ++ "\x7d")
      | .error e => .error e
    | .enum t =>
      match get_entry_name t with
      | .ok name =>
        if level == 0 then pure ("enum " ++ name ++ " " ++ memberName)
        else pure ("enum " ++ name)
      | .error .NameAttributeNotFound =>
        if level == 0 then pure ("enum " ++ memberName) else pure "enum"
      | .error e => .error e
    | .union u =>
      match get_entry_name u with
      | .ok name =>
        if level == 0 then pure ("union " ++ name ++ " " ++ memberName)
        else pure ("union " ++ name)
      | .error .NameAttributeNotFound => do
        let body ← format_members_concat asz fuel (u_members u) (tablevel + 1) verbosity baseOffset
        pure ("union \x7b\n" ++ body ++ indentStr tablevel ++ "\x7d")
      | .error e => .error e
    | .base t => do
      let name ← get_entry_name t
      if level == 0 then pure (name ++ " " ++ memberName) else pure name
    | .subroutine t =>
      -- just return the comma separated arg string
      format_params_concat asz fuel (u_get_params t) level tablevel verbosity baseOffset
    | .pointer p =>
      let inner := u_get_type p
      match inner with
      | .ok (.subroutine subp) => do
        -- pointers to subroutines must be handled differently
        let returnType ←
          match u_get_type subp with
          | .ok rtype => format_type asz fuel "" rtype (level + 1) tablevel verbosity baseOffset
          | .error .TypeAttributeNotFound => .ok "void"
          | .error e => .error e
        let argstr ← format_type asz fuel "" (.subroutine subp) (level + 1) tablevel verbosity baseOffset
        pure (returnType ++ " (*" ++ memberName ++ ")(" ++ argstr ++ ")")
      | _ => do
        let ptrType ←
          match inner with
          | .ok i => format_type asz fuel "" i (level + 1) tablevel verbosity baseOffset
          | .error .TypeAttributeNotFound => .ok "void"
          | .error e => .error e
        let out := ptrType ++ (if ptrType.endsWith "*" then "*" else " *")
        pure (if level == 0 then out ++ memberName else out)
    | .const c =>
      match u_get_type c with
      | .ok inner => do
        let innerFmt ← format_type asz fuel "" inner (level + 1) tablevel verbosity baseOffset
        pure ("const " ++ innerFmt)
      | .error .TypeAttributeNotFound => pure "const void"
      | .error e => .error e
    | .volatile c => do
      let inner ← u_get_type c
      let innerFmt ← format_type asz fuel "" inner (level + 1) tablevel verbosity baseOffset
      pure ("volatile " ++ innerFmt)
    | .restrict c => do
      let inner ← u_get_type c
      let innerFmt ← format_type asz fuel "" inner (level + 1) tablevel verbosity baseOffset
      pure (innerFmt ++ " restrict")
    -- the match in src/format.rs has no arm for Type::Variable; a
    -- variable handle never reaches the formatter
    | .variable _ => .error (.UnimplementedError "format_type, unhandled dwarf type")
termination_by structural fuel _ _ _ _ _ _ => fuel

/-- The parameter loop of the `Subroutine` arm of `format_type`: each
parameter's type formatted, joined with `", "`. -/
def format_params_concat (asz : Nat) :
    Nat → List DIE → Nat → Nat → Nat → Nat → Except Error String
  | _, [], _, _, _, _ => .ok ""
  | 0, _ :: _, _, _, _, _ => .error (.UnimplementedError "recursion limit")
  | fuel + 1, p :: rest, level, tablevel, verbosity, baseOffset => do
    let pt ← u_get_type p
    let s ← format_type asz fuel "" pt (level + 1) tablevel verbosity baseOffset
    let r ← format_params_concat asz fuel rest level tablevel verbosity baseOffset
    pure (s ++ (if rest.isEmpty then "" else ", ") ++ r)
termination_by structural fuel _ _ _ _ _ => fuel

/-- The member loop of the anonymous-aggregate arms of `format_type`
(and of `to_string_verbose` below): the concatenation of the formatted
members. -/
def format_members_concat (asz : Nat) :
    Nat → List DIE → Nat → Nat → Nat → Except Error String
  | _, [], _, _, _ => .ok ""
  | 0, _ :: _, _, _, _ => .error (.UnimplementedError "recursion limit")
  | fuel + 1, m :: rest, tablevel, verbosity, baseOffset => do
    let s ← format_member asz fuel m tablevel verbosity baseOffset
    let r ← format_members_concat asz fuel rest tablevel verbosity baseOffset
    pure (s ++ r)
termination_by structural fuel _ _ _ _ => fuel

/-- `format_member` of src/format.rs. -/
def format_member (asz : Nat) :
    Nat → DIE → Nat → Nat → Nat → Except Error String
  | 0, _, _, _, _ => .error (.UnimplementedError "recursion limit")
  | fuel + 1, m, tablevel, verbosity, baseOffset => do
    let mtype ← u_get_type m
    let name ← member_name_or_empty m
    let membOffset ← member_offset_or_zero m
    let offset := baseOffset + membOffset
    let tfmt ← format_type asz fuel name mtype 0 tablevel verbosity offset
    let f ← bit_suffix m (indentStr tablevel ++ tfmt)
    let f := f ++ ";"
    if verbosity > 0 then do
      -- pad to column 48 (no padding when the line is already longer),
      -- then `\t/* {bytesz: >4} | {offset: >4} */`
      let bytesz ← member_u_byte_size asz fuel m
      pure (f ++ spaces (48 - lastLineLen f) ++
            "\t/* " ++ pad4 bytesz ++ " | " ++ pad4 offset ++ " */" ++ "\n")
    else
      pure (f ++ "\n")
termination_by structural fuel _ _ _ _ => fuel

end

/-- The member loop of `Struct::to_string_verbose`: the concatenation of
the formatted members, stopping at (and reporting) the first error while
keeping what was already pushed. -/
def members_repr (asz fuel : Nat) : List DIE → Nat → String × Option Error
  | [], _ => ("", none)
  | m :: rest, verbosity =>
    match format_member asz fuel m 0 verbosity 0 with
    | .ok s =>
      let (r, e) := members_repr asz fuel rest verbosity
      (s ++ r, e)
    | .error e => ("", some e)

/-- `Struct::to_string_verbose` of src/types.rs.  The source ignores the
result of the `unit_context` closure and returns whatever was pushed into
`repr` before any error, so the function always yields a string. -/
def to_string_verbose (asz fuel : Nat) (d : DIE) (verbosity : Nat) : String :=
  let header : Except Error String :=
    match get_entry_name d with
    | .ok name => .ok ("struct " ++ name ++ " \x7b\n")
    | .error .NameAttributeNotFound => .ok "struct \x7b\n"
    | .error e => .error e
  match header with
  | .error _ => ""
  | .ok h =>
    match members_repr asz fuel (u_members d) verbosity with
    | (body, some _) => h ++ body
    | (body, none) =>
      let r1 := h ++ body
      let r2 : Except Error String :=
        if verbosity > 0 then
          match get_entry_byte_size d with
          | .ok b => .ok (r1 ++ "\n    /* total size: " ++ toString b ++ " */\n")
          | .error e => .error e
        else .ok r1
      match r2 with
      | .error _ => r1
      | .ok r2 =>
        let r3 := r2 ++ "\x7d"
        match get_entry_alignment d with
        | .ok a => r3 ++ " __attribute((__aligned__(" ++ toString a ++ ")))" ++ ";"
        | .error .AlignmentAttributeNotFound => r3 ++ ";"
        | .error _ => r3

/-- Whether `pre` is a prefix of `l` (spelled out so the check is a plain
computation). -/
def charPrefixEq : List Char → List Char → Bool
  | [], _ => true
  | _ :: _, [] => false
  | a :: as, b :: bs => a == b && charPrefixEq as bs

/-- Whether the string `needle` occurs as a contiguous substring of
`hay`. -/
def hasSubstring (needle hay : String) : Bool :=
  go needle.data hay.data
where
  go (n : List Char) : List Char → Bool
    | [] => charPrefixEq n []
    | c :: cs => charPrefixEq n (c :: cs) || go n cs

instance {ε α : Type} [DecidableEq ε] [DecidableEq α] : DecidableEq (Except ε α) :=
  fun x y =>
    match x, y with
    | .ok a, .ok b =>
      if h : a = b then .isTrue (by rw [h]) else .isFalse (by simp [h])
    | .error a, .error b =>
      if h : a = b then .isTrue (by rw [h]) else .isFalse (by simp [h])
    | .ok _, .error _ => .isFalse (by simp)
    | .error _, .ok _ => .isFalse (by simp)

theorem ok_bind {α β : Type} (a : α) (f : α → Except Error β) :
    (Except.ok a >>= f) = f a := rfl

theorem error_bind {α β : Type} (e : Error) (f : α → Except Error β) :
    ((Except.error e : Except Error α) >>= f) = .error e := rfl

/-- A DIE with one extra attribute in front (the other attributes, the
type reference and the children are unchanged). -/
def withAttr (d : DIE) (k : AttrName) (v : AttrValue) : DIE :=
  .mk d.tag ((k, v) :: d.attrs) d.typeAttr d.children

theorem findAttr_withAttr_self (d : DIE) (k : AttrName) (v : AttrValue) :
    findAttr (withAttr d k v) k = some v := by
  simp [findAttr, withAttr, DIE.attrs]

theorem findAttr_withAttr_ne (d : DIE) (k k' : AttrName) (v : AttrValue)
    (h : k' ≠ k) : findAttr (withAttr d k v) k' = findAttr d k' := by
  have hb : (k == k') = false := beq_false_of_ne (Ne.symm h)
  simp [findAttr, withAttr, DIE.attrs, List.find?, hb]

theorem typeAttr_withAttr (d : DIE) (k : AttrName) (v : AttrValue) :
    (withAttr d k v).typeAttr = d.typeAttr := rfl

theorem u_get_type_withAttr (d : DIE) (k : AttrName) (v : AttrValue) :
    u_get_type (withAttr d k v) = u_get_type d := rfl

/-! Concrete DIEs used by the evaluation theorems: a base type with a
name and a byte size, and a member at a given offset. -/

/-- A `DW_TAG_base_type` DIE carrying a name and a byte size. -/
def baseDie (name : String) (sz : Nat) : DIE :=
  .mk .base_type [(.name, .str name), (.byte_size, .udata sz)] none []

/-- A `DW_TAG_member` DIE carrying a name, a constant
`DW_AT_data_member_location` and a type reference. -/
def memberDie (name : String) (off : Nat) (t : DIE) : DIE :=
  .mk .member [(.name, .str name), (.data_member_location, .udata off)] (some t) []

/-- The spec's `struct padded { unsigned int ui; unsigned long long ull; }`
example compiled on x86-64: members at offsets 0 and 8 with byte sizes 4
and 8, `DW_AT_byte_size` 16. -/
def paddedStruct : DIE :=
  .mk .structure_type [(.name, .str "padded"), (.byte_size, .udata 16)] none
    [memberDie "ui" 0 (baseDie "unsigned int" 4),
     memberDie "ull" 8 (baseDie "unsigned long long" 8)]

/-- A struct whose last tracked member ends past the struct's
`DW_AT_byte_size` (offset 6 + size 8 > 8), as bit-field layouts can
produce: the padding subtraction underflows. -/
def bfStruct : DIE :=
  .mk .structure_type [(.name, .str "bf"), (.byte_size, .udata 8)] none
    [memberDie "a" 0 (baseDie "int" 4),
     memberDie "b" 6 (baseDie "long long" 8)]

/-- Claim C1: for every `Pointer` handle, `Pointer::byte_size` (and the
CU-scoped `u_byte_size`) returns the `address_size` recorded in the
containing compile unit's header, independent of any `DW_AT_byte_size`
attribute emitted on the pointer DIE (the second conjunct adds such an
attribute explicitly). -/
theorem C1_pointer_byte_size (asz fuel : Nat) (d : DIE) :
    Ty.u_byte_size asz (fuel + 1) (.pointer d) = .ok asz ∧
    ∀ v, Ty.u_byte_size asz (fuel + 1)
        (.pointer (withAttr d .byte_size (.udata v))) = .ok asz :=
  ⟨rfl, fun _ => rfl⟩

/-- Claim C2 (code bug): on the spec's `struct padded` example — members
at offsets 0 and 8 with byte sizes 4 and 8, `DW_AT_byte_size` 16 —
`Struct::alignment_stats` returns `nr_holes = 0` and `hole_positions = []`
instead of the claimed `nr_holes = 1`, `hole_positions = [(1, 4)]`: the
`prev_offset == 0` seed branch fires again for the second member because
the first member is at offset 0, so the hole between them is skipped.
`padding = 0` as claimed. -/
theorem C2_alignment_stats_padded_eval :
    get_entry_byte_size paddedStruct = .ok 16 ∧
    (u_members paddedStruct).map u_offset = [.ok 0, .ok 8] ∧
    (u_members paddedStruct).map (member_u_byte_size 8 4) = [.ok 4, .ok 8] ∧
    alignment_stats 8 4 paddedStruct =
      .ok { nrHoles := 0, holePositions := [], sumHoles := 0,
            sumMemberSize := 12, padding := 0, nrUnnatAlignment := 0 } :=
  ⟨rfl, rfl, rfl, rfl⟩

/-- Claim C3 (code bug): the claimed invariant
`sum_member_size + sum_holes + padding = byte_size` fails on the
`struct padded` example, a non-packed struct with strictly increasing
member offsets: the code computes 12 + 0 + 0 = 12 while the struct's
byte size is 16, because the hole after the first member is never
counted (same seed bug as C2). -/
theorem C3_size_invariant_fails_eval :
    alignment_stats 8 4 paddedStruct =
      .ok { nrHoles := 0, holePositions := [], sumHoles := 0,
            sumMemberSize := 12, padding := 0, nrUnnatAlignment := 0 } ∧
    get_entry_byte_size paddedStruct = .ok 16 ∧
    ((12 : Int) + 0 + 0 ≠ (16 : Int)) :=
  ⟨rfl, rfl, by decide⟩

/-- Claim C10: `Struct::alignment_stats` computes the trailing padding as
the unguarded subtraction `byte_size - (prev_size + prev_offset)`; for
every struct in which the last tracked member's offset plus size exceeds
the struct's byte size, the function returns `Ok` with a negative padding
(the source's `usize` subtraction underflows) instead of returning an
error. -/
theorem C10_padding_underflow (asz fuel : Nat) (d : DIE) (st : AlignState) (B : Nat)
    (hloop : align_loop asz fuel (u_members d).enum ⟨0, [], 0, 0, 0, 0, 0⟩ = .ok st)
    (hB : get_entry_byte_size d = .ok B)
    (hlt : B < st.prevSize + st.prevOffset) :
    alignment_stats asz fuel d =
      .ok ⟨st.nrHoles, st.holePositions, st.sumHoles, st.sumMemberSize,
           (B : Int) - ((st.prevSize : Int) + (st.prevOffset : Int)),
           st.nrUnnatAlignment⟩ ∧
    (B : Int) - ((st.prevSize : Int) + (st.prevOffset : Int)) < 0 := by
  refine ⟨?_, by omega⟩
  simp only [alignment_stats, hloop, hB]
  rfl

/-- Witness for C10 at `bfStruct`: the loop ends tracking offset 6 and
size 8 while the byte size is 8, and the result is `Ok` with padding
8 - (8 + 6) < 0. -/
theorem C10_padding_underflow_witness :
    alignment_stats 8 4 bfStruct =
      .ok ⟨0, [], 0, 12, ((8 : Nat) : Int) - (((8 : Nat) : Int) + ((6 : Nat) : Int)), 0⟩ ∧
    ((8 : Nat) : Int) - (((8 : Nat) : Int) + ((6 : Nat) : Int)) < 0 :=
  C10_padding_underflow 8 4 bfStruct ⟨0, [], 0, 12, 0, 6, 8⟩ 8 rfl rfl (by decide)

/-- A declaration-only struct DIE named "foo"
(`DW_AT_declaration = true`, no members, no byte size). -/
def fooDecl : DIE :=
  .mk .structure_type [(.name, .str "foo"), (.declaration, .flag true)] none []

/-- DWARF data whose only `foo` struct DIE is the declaration-only one. -/
def dwC4 : DwarfData := [⟨8, [.mk .compile_unit [] none [fooDecl]]⟩]

theorem lookup_match_iff (t : DwTag) (name : String) (d : DIE) :
    lookup_match t name d = true ↔ d.tag = t ∧ get_entry_name d = .ok name := by
  unfold lookup_match
  cases hg : get_entry_name d with
  | ok s => simp [Bool.and_eq_true, beq_iff_eq]
  | error e => simp

/-- Claim C4 (counterexample): on `dwC4`, whose only tag-and-name match
carries `DW_AT_declaration = true`, `lookup_type` returns `Some` although
no non-declaration DIE of that tag and name exists — the claimed
equivalence is false (the declaration filter of the map builders is
absent on the `lookup_type` path). -/
theorem C4_counterexample :
    ¬ (((lookup_type .structure_type "foo" dwC4).isSome = true) ↔
       (∃ d ∈ allEntries dwC4, d.tag = .structure_type ∧
          get_entry_name d = .ok "foo" ∧ declaredTrue d = false)) := by
  decide

/-- Claim C4 (amended): `lookup_type::<T>(name)` returns `Some(handle)`
iff some DIE of tag T whose name decodes to the queried name exists in
the DWARF data — regardless of any `DW_AT_declaration` attribute — and
the returned handle's tag and name match the query. -/
theorem C4_lookup_amended (t : DwTag) (name : String) (dw : DwarfData) :
    ((lookup_type t name dw).isSome = true ↔
      ∃ d ∈ allEntries dw, d.tag = t ∧ get_entry_name d = .ok name) ∧
    ∀ h, lookup_type t name dw = some h → h.tag = t ∧ get_entry_name h = .ok name := by
  constructor
  · rw [lookup_type, List.find?_isSome]
    constructor
    · rintro ⟨d, hd, hm⟩
      exact ⟨d, hd, (lookup_match_iff t name d).1 hm⟩
    · rintro ⟨d, hd, hm⟩
      exact ⟨d, hd, (lookup_match_iff t name d).2 hm⟩
  · intro h hh
    exact (lookup_match_iff t name h).1 (List.find?_some hh)

/-- Witness for the amended C4 at `dwC4`: the declaration-only `foo` is
found. -/
theorem C4_lookup_amended_witness :
    (lookup_type .structure_type "foo" dwC4).isSome = true :=
  (C4_lookup_amended .structure_type "foo" dwC4).1.mpr (by decide)

/-- A typedef DIE that carries its own `DW_AT_byte_size` (7) while its
inner type is a 4-byte base type. -/
def tdC5 : DIE :=
  .mk .typedef [(.name, .str "T"), (.byte_size, .udata 7)] (some (baseDie "int" 4)) []

/-- Claim C5 (counterexample): `Typedef::u_byte_size` ignores the DIE's
own `DW_AT_byte_size` attribute (present with value 7) and returns the
inner type's size 4, contradicting the claim that the attribute is used
when present. -/
theorem C5_counterexample :
    findAttr tdC5 .byte_size = some (.udata 7) ∧
    Ty.u_byte_size 8 2 (.typedef tdC5) = .ok 4 ∧
    Ty.u_byte_size 8 2 (.typedef tdC5) ≠ .ok 7 :=
  ⟨rfl, rfl, by decide⟩

/-- Claim C5 (amended): only `Const` uses its own `DW_AT_byte_size` when
it is readable and delegates to the inner type otherwise; `Typedef`,
`Volatile` and `Restrict` always delegate to the inner type's byte size,
ignoring any `DW_AT_byte_size` attribute (the `withAttr` conjuncts add
one explicitly). -/
theorem C5_modifier_byte_size_amended (asz fuel : Nat) (d : DIE) (v : AttrValue) :
    (Ty.u_byte_size asz (fuel + 1) (.typedef d) =
      (u_get_type d).bind (Ty.u_byte_size asz fuel)) ∧
    (Ty.u_byte_size asz (fuel + 1) (.volatile d) =
      (u_get_type d).bind (Ty.u_byte_size asz fuel)) ∧
    (Ty.u_byte_size asz (fuel + 1) (.restrict d) =
      (u_get_type d).bind (Ty.u_byte_size asz fuel)) ∧
    (Ty.u_byte_size asz (fuel + 1) (.typedef (withAttr d .byte_size v)) =
      (u_get_type d).bind (Ty.u_byte_size asz fuel)) ∧
    (Ty.u_byte_size asz (fuel + 1) (.volatile (withAttr d .byte_size v)) =
      (u_get_type d).bind (Ty.u_byte_size asz fuel)) ∧
    (Ty.u_byte_size asz (fuel + 1) (.restrict (withAttr d .byte_size v)) =
      (u_get_type d).bind (Ty.u_byte_size asz fuel)) ∧
    (∀ n, findAttr d .byte_size = some (.udata n) →
      Ty.u_byte_size asz (fuel + 1) (.const d) = .ok n) ∧
    (findAttr d .byte_size = none →
      Ty.u_byte_size asz (fuel + 1) (.const d) =
        (u_get_type d).bind (Ty.u_byte_size asz fuel)) := by
  refine ⟨rfl, rfl, rfl, rfl, rfl, rfl, fun n h => ?_, fun h => ?_⟩ <;>
    simp [Ty.u_byte_size, get_entry_byte_size, h]

/-- A const DIE with its own `DW_AT_byte_size` (12) and a 4-byte inner
type. -/
def constC5 : DIE :=
  .mk .const_type [(.byte_size, .udata 12)] (some (baseDie "int" 4)) []

/-- Witness for the amended C5: `Const` does use its own attribute. -/
theorem C5_modifier_byte_size_amended_witness :
    Ty.u_byte_size 8 2 (.const constC5) = .ok 12 :=
  (C5_modifier_byte_size_amended 8 1 constC5 .exprloc).2.2.2.2.2.2.1 12 rfl

/-- Claim C7: `Member::u_member_location` (and its alias `u_offset`)
returns the constant value of `DW_AT_data_member_location`; an exprloc-
or loclist-valued attribute fails with the `Unimplemented` error kind. -/
theorem C7_member_location (d : DIE) :
    (∀ n, findAttr d .data_member_location = some (.udata n) →
      u_member_location d = .ok n ∧ u_offset d = .ok n) ∧
    (findAttr d .data_member_location = some .exprloc →
      u_member_location d =
        .error (.UnimplementedError "member_location with exprloc value")) ∧
    (findAttr d .data_member_location = some .loclist →
      u_member_location d =
        .error (.UnimplementedError "member_location with loclist value")) := by
  refine ⟨fun n h => ?_, fun h => ?_, fun h => ?_⟩ <;>
    simp [u_member_location, u_offset, h]

/-- Witness for C7 at a concrete member with offset 5. -/
theorem C7_member_location_witness :
    u_member_location (memberDie "x" 5 (baseDie "int" 4)) = .ok 5 ∧
    u_offset (memberDie "x" 5 (baseDie "int" 4)) = .ok 5 :=
  (C7_member_location (memberDie "x" 5 (baseDie "int" 4))).1 5 rfl

theorem dfs_leaf (s : DIE) (h : s.children = []) : DIE.dfs s = [s] := by
  obtain ⟨t, a, ty, cs⟩ := s
  simp only [DIE.children] at h
  subst h
  rfl

theorem childEntries_single (d s : DIE) (hch : d.children = [s])
    (hleaf : s.children = []) : childEntries d = [s] := by
  simp [childEntries, hch, dfsList, dfs_leaf s hleaf]

/-- Claim C6: for an `Array` DIE without `DW_AT_byte_size`, the byte size
is `entry_size * bound`, with the bound derived from the single child
`DW_TAG_subrange_type`: `DW_AT_upper_bound + 1` when present, else
`DW_AT_count`, else 0 — so the flexible-array case yields size 0. -/
theorem C6_array_byte_size (asz fuel : Nat) (d s : DIE)
    (hb : findAttr d .byte_size = none)
    (hch : d.children = [s]) (hleaf : s.children = [])
    (hs : s.tag = .subrange_type) :
    (Ty.u_byte_size asz (fuel + 1) (.array d) = do
      let es ← (u_get_type d).bind (Ty.u_byte_size asz fuel)
      let b ← u_get_bound d
      pure (es * b)) ∧
    (∀ v, findAttr s .upper_bound = some (.udata v) → u_get_bound d = .ok (v + 1)) ∧
    (findAttr s .upper_bound = none → ∀ v, findAttr s .count = some (.udata v) →
      u_get_bound d = .ok v) ∧
    (findAttr s .upper_bound = none → findAttr s .count = none →
      u_get_bound d = .ok 0) ∧
    (findAttr s .upper_bound = none → findAttr s .count = none →
      ∀ es, (u_get_type d).bind (Ty.u_byte_size asz fuel) = .ok es →
        Ty.u_byte_size asz (fuel + 1) (.array d) = .ok 0) := by
  have hce : childEntries d = [s] := childEntries_single d s hch hleaf
  refine ⟨?_, fun v hup => ?_, fun hup v hc => ?_, fun hup hc => ?_, fun hup hc es hes => ?_⟩
  · simp [Ty.u_byte_size, get_entry_byte_size, hb]
  · simp [u_get_bound, hce, u_get_bound_loop, hs, hup]
  · simp [u_get_bound, hce, u_get_bound_loop, hs, hup, hc]
  · simp [u_get_bound, hce, u_get_bound_loop, hs, hup, hc]
  · have hbd : u_get_bound d = .ok 0 := by
      simp [u_get_bound, hce, u_get_bound_loop, hs, hup, hc]
    simp only [Ty.u_byte_size, get_entry_byte_size, hb, hes, hbd]
    rfl

/-- An `int x[10]` array DIE: inner type `int`, one subrange child with
`DW_AT_upper_bound = 9`, no `DW_AT_byte_size` of its own. -/
def arrC6 : DIE :=
  .mk .array_type [] (some (baseDie "int" 4))
    [.mk .subrange_type [(.upper_bound, .udata 9)] none []]

/-- Witness for C6 at `arrC6`: bound 10 from `upper_bound 9`. -/
theorem C6_array_byte_size_witness : u_get_bound arrC6 = .ok 10 :=
  (C6_array_byte_size 8 1 arrC6 (.mk .subrange_type [(.upper_bound, .udata 9)] none [])
    rfl rfl rfl rfl).2.1 9 rfl

/-- Claim C8: the formatter treats `NameNotFound` on a member's struct or
union type as an anonymous aggregate and emits the expanded
`struct {` / `union {` form with recursively formatted members; it treats
`MemberLocationNotFound` on a member as offset 0 (formatting it exactly
like the same member with a constant location 0); and other error kinds
are returned unchanged (shown for a failing member type resolution and
for a non-`NameNotFound` struct-name error). -/
theorem C8_formatter_error_policy (asz fuel : Nat) (m s : DIE) (mn : String)
    (level tablevel verbosity baseOffset : Nat) :
    (get_entry_name s = .error .NameAttributeNotFound →
      format_type asz (fuel + 1) mn (.struct s) level tablevel verbosity baseOffset = do
        let body ← format_members_concat asz fuel (u_members s) (tablevel + 1) verbosity baseOffset
        pure ("struct \x7b\n" ++ body ++ indentStr tablevel ++ "\x7d")) ∧
    (get_entry_name s = .error .NameAttributeNotFound →
      format_type asz (fuel + 1) mn (.union s) level tablevel verbosity baseOffset = do
        let body ← format_members_concat asz fuel (u_members s) (tablevel + 1) verbosity baseOffset
        pure ("union \x7b\n" ++ body ++ indentStr tablevel ++ "\x7d")) ∧
    (findAttr m .data_member_location = none →
      format_member asz fuel m tablevel verbosity baseOffset =
        format_member asz fuel (withAttr m .data_member_location (.udata 0))
          tablevel verbosity baseOffset) ∧
    (∀ e, u_get_type m = .error e →
      format_member asz (fuel + 1) m tablevel verbosity baseOffset = .error e) ∧
    (∀ e, get_entry_name s = .error e → e ≠ .NameAttributeNotFound →
      format_type asz (fuel + 1) mn (.struct s) level tablevel verbosity baseOffset =
        .error e) := by
  refine ⟨fun h => ?_, fun h => ?_, fun h => ?_, fun e h => ?_, fun e h hne => ?_⟩
  · simp [format_type, h]
  · simp [format_type, h]
  · cases fuel with
    | zero => rfl
    | succ fuel =>
      have h1 : u_get_type (withAttr m .data_member_location (.udata 0)) = u_get_type m := rfl
      have h2 : get_entry_name (withAttr m .data_member_location (.udata 0)) =
          get_entry_name m := by
        unfold get_entry_name
        rw [findAttr_withAttr_ne _ _ _ _ (by decide)]
      have h3 : u_member_location m = .error .MemberLocationAttributeNotFound := by
        simp [u_member_location, h]
      have h4 : u_member_location (withAttr m .data_member_location (.udata 0)) = .ok 0 := by
        simp [u_member_location, findAttr_withAttr_self]
      have h5 : u_bit_size (withAttr m .data_member_location (.udata 0)) = u_bit_size m := by
        unfold u_bit_size
        rw [findAttr_withAttr_ne _ _ _ _ (by decide)]
      simp [format_member, member_name_or_empty, member_offset_or_zero, bit_suffix,
            u_offset, member_u_byte_size, h1, h2, h3, h4, h5]
  · simp only [format_member, h]
    rfl
  · cases e
    case NameAttributeNotFound => exact absurd rfl hne
    all_goals simp [format_type, h]

/-- An anonymous struct DIE (no `DW_AT_name`) with one `int` member. -/
def anonC8 : DIE :=
  .mk .structure_type [(.byte_size, .udata 4)] none [memberDie "b" 0 (baseDie "int" 4)]

/-- Witness for C8 at `anonC8`: the expanded anonymous form is emitted. -/
theorem C8_formatter_error_policy_witness :
    format_type 8 3 "s" (.struct anonC8) 0 0 0 0 =
      (do
        let body ← format_members_concat 8 2 (u_members anonC8) 1 0 0
        pure ("struct \x7b\n" ++ body ++ indentStr 0 ++ "\x7d")) :=
  (C8_formatter_error_policy 8 2 anonC8 anonC8 "s" 0 0 0 0).1 rfl

/-- A member `int x` at offset 0. -/
def m9 : DIE := memberDie "x" 0 (baseDie "int" 4)

/-- Claim C9 (counterexample): at verbosity 1 the member comment the
formatter emits is `\t/*    4 |    0 */` — there are no `sz:` / `off:`
labels anywhere in the output, so the claimed exact form
`/* sz: S | off: O */` is not what the code produces. -/
theorem C9_counterexample :
    format_member 8 2 m9 0 1 0 =
      .ok ("    int x;" ++ spaces 38 ++ "\t/*    4 |    0 */\n") ∧
    hasSubstring "sz:" ("    int x;" ++ spaces 38 ++ "\t/*    4 |    0 */\n") = false ∧
    hasSubstring "off:" ("    int x;" ++ spaces 38 ++ "\t/*    4 |    0 */\n") = false :=
  ⟨rfl, by decide, by decide⟩

/-- Claim C9 (amended): with verbosity at least 1 the formatter pads each
member line with spaces to column 48 and appends a tab and a comment of
the exact form `/* S | O */` with S and O right-aligned to width 4 (S the
member's byte size, O its absolute offset `base_offset + member_offset`;
no `sz:` / `off:` labels); and the struct rendering ends with a final
`/* total size: N */` comment before the closing brace. -/
theorem C9_verbose_format_amended (asz fuel : Nat) :
    (∀ (m : DIE) (tablevel verbosity baseOffset : Nat) (t : Ty)
       (nm tf f2 : String) (off sz : Nat),
      0 < verbosity →
      u_get_type m = .ok t →
      member_name_or_empty m = .ok nm →
      member_offset_or_zero m = .ok off →
      format_type asz fuel nm t 0 tablevel verbosity (baseOffset + off) = .ok tf →
      bit_suffix m (indentStr tablevel ++ tf) = .ok f2 →
      member_u_byte_size asz fuel m = .ok sz →
      format_member asz (fuel + 1) m tablevel verbosity baseOffset =
        .ok ((f2 ++ ";") ++ spaces (48 - lastLineLen (f2 ++ ";")) ++
             "\t/* " ++ pad4 sz ++ " | " ++ pad4 (baseOffset + off) ++ " */" ++ "\n")) ∧
    (∀ (d : DIE) (verbosity : Nat) (nm body : String) (B : Nat),
      0 < verbosity →
      get_entry_name d = .ok nm →
      members_repr asz fuel (u_members d) verbosity = (body, none) →
      get_entry_byte_size d = .ok B →
      get_entry_alignment d = .error .AlignmentAttributeNotFound →
      to_string_verbose asz fuel d verbosity =
        "struct " ++ nm ++ " \x7b\n" ++ body ++
          "\n    /* total size: " ++ toString B ++ " */\n" ++ "\x7d" ++ ";") := by
  constructor
  · intro m tablevel verbosity baseOffset t nm tf f2 off sz
      hv ht hn ho htf hbs hsz
    simp only [format_member, ht, hn, ho, ok_bind, htf, hbs, hsz, hv, if_pos]
    rfl
  · intro d verbosity nm body B hv hname hmr hB halign
    simp only [to_string_verbose, hname, hmr, hB, halign, hv, if_pos]

/-- Witness for the amended C9 at the member `int x`. -/
theorem C9_verbose_format_amended_witness :
    format_member 8 2 m9 0 1 0 =
      .ok ((("    " ++ "int x") ++ ";") ++
           spaces (48 - lastLineLen (("    " ++ "int x") ++ ";")) ++
           "\t/* " ++ pad4 4 ++ " | " ++ pad4 (0 + 0) ++ " */" ++ "\n") :=
  (C9_verbose_format_amended 8 1).1 m9 0 1 0 (.base (baseDie "int" 4))
    "x" "int x" ("    " ++ "int x") 0 4
    (by decide) rfl rfl rfl rfl rfl rfl

end Dwat
